import Mathlib

set_option maxRecDepth 2000

/-!
Verification of the tool-augmented agent loop of the blueberry-browser
repository, as a shallow embedding in Lean 4.

The embedding translates the TypeScript sources:
* `src/main/LLMClient.ts` — system-prompt assembly (`buildSystemPrompt`,
  `truncateText`) and the tool-namespace merge in `streamResponse` /
  `initializeBuiltInTools`;
* `src/main/tools/browserAutomationTools.ts`, `src/main/tools/captchaTools.ts`
  — the `withActiveTab` and `withErrorHandling` wrappers, the CAPTCHA answer
  normalisation, the grid-cell click script, and the `autoSolveCaptcha`
  challenge loop (the same loop also appears in `src/main/CaptchaSolver.ts`);
* `src/renderer/sidebar/src/contexts/ChatContext.tsx` — the tool-activity
  correlation in `handleChatResponse`.

JavaScript machine integers do not matter here (all counters are small
naturals; model-provided grid indices are modelled as `Int`); mutable state
is passed explicitly; fallible executors are modelled with `Except`.
-/

/-! ## Tool results and the two tool wrappers

From `src/main/tools/types.ts` (`ToolResult`), and the identical helpers
`withActiveTab` / `withErrorHandling` at the top of
`browserAutomationTools.ts` and `captchaTools.ts`. -/

/-- The shape of `ToolResult` in `src/main/tools/types.ts`: a success flag
with optional `message` and `error` fields. -/
structure ToolResult where
  success : Bool
  message : Option String := none
  error : Option String := none
deriving DecidableEq, Repr

/-- A JavaScript thrown value as seen by the `catch` blocks: either an
`Error` instance carrying `.message`, or any other value together with its
`String(error)` rendering. -/
inductive ThrownValue where
  | errorInstance (message : String)
  | nonError (stringRendering : String)
deriving DecidableEq, Repr

/-- `error instanceof Error ? error.message : String(error)` from the
`catch` block of `withErrorHandling`. -/
def thrownText : ThrownValue → String
  | ThrownValue.errorInstance m => m
  | ThrownValue.nonError s => s

/-- `withErrorHandling` from `browserAutomationTools.ts` lines 25-36 and
`captchaTools.ts` lines 31-42: run the body; a thrown value becomes a
`ToolResult` with `success: false` and the rendered error text. -/
def withErrorHandling (fn : Except ThrownValue ToolResult) : ToolResult :=
  match fn with
  | Except.ok r => r
  | Except.error e => { success := false, error := some (thrownText e) }

/-- `withActiveTab` from `browserAutomationTools.ts` lines 8-20 and
`captchaTools.ts` lines 14-26: `context.getActiveTab()` yielded `tab`
(`none` models a `null` active tab); without a tab the body `fn` is never
run and the fixed error result is returned. -/
def withActiveTab {τ : Type} (tab : Option τ) (fn : τ → ToolResult) : ToolResult :=
  match tab with
  | none => { success := false, error := some "No active tab available" }
  | some t => fn t

/-! ## CAPTCHA answer normalisation

From `solveTextCaptcha` / `solveImageCaptcha` (`CaptchaSolver.ts` lines
417-419 and 495-497, `captchaTools.ts` lines 423-425 and 486-488):
`answer.trim().split("\n")[0]` followed by
`answer.replace(/[^a-zA-Z0-9\s]/g, "")`. -/

/-- The character class `\s` of a JavaScript regular expression. -/
def jsWhitespace : List Char :=
  ['\t', '\n', '\x0b', '\x0c', '\r', ' ', '\u00a0', '\u1680', '\u2000',
   '\u2001', '\u2002', '\u2003', '\u2004', '\u2005', '\u2006', '\u2007',
   '\u2008', '\u2009', '\u200a', '\u2028', '\u2029', '\u202f', '\u205f',
   '\u3000', '\ufeff']
/-- Membership in the JavaScript `\s` class. -/
def isJsWhitespace (c : Char) : Bool :=
  jsWhitespace.contains c

/-- Membership in the regex class `[a-zA-Z0-9]`. -/
def isAsciiAlphanumeric (c : Char) : Bool :=
  ('a' ≤ c && c ≤ 'z') || ('A' ≤ c && c ≤ 'Z') || ('0' ≤ c && c ≤ '9')

/-- JavaScript `String.prototype.trim`: strip leading and trailing `\s`
characters. -/
def jsTrim (s : String) : String :=
  (((s.data.dropWhile isJsWhitespace).reverse.dropWhile isJsWhitespace).reverse).asString

/-- JavaScript `s.split("\n")[0]`: the characters before the first newline. -/
def firstLine (s : String) : String :=
  (s.data.takeWhile (fun c => c ≠ '\n')).asString

/-- JavaScript `s.replace(/[^a-zA-Z0-9\s]/g, "")`: delete every character
that is neither ASCII alphanumeric nor `\s`. -/
def stripSpecialChars (s : String) : String :=
  (s.data.filter (fun c => isAsciiAlphanumeric c || isJsWhitespace c)).asString

/-- The answer clean-up of the text/image CAPTCHA paths:
`answer.trim().split("\n")[0]` then the `[^a-zA-Z0-9\s]` strip. -/
def normalizeCaptchaAnswer (answer : String) : String :=
  stripSpecialChars (firstLine (jsTrim answer))

/-! ## Grid-cell clicks

From the `clickNext` closure of the click script in `clickCaptchaImages`
(`captchaTools.ts` lines 176-200, `CaptchaSolver.ts` lines 241-265): each
model-provided index is decremented (`const cellIndex = index - 1`) and the
cell is clicked only when `cellIndex >= 0 && cellIndex < cells.length`;
otherwise the index is skipped and the iteration continues. The result
collects the 0-based cell positions clicked, in order. -/

/-- The sequence of 0-based cell positions clicked by `clickNext` for the
model-provided 1-based `indices` against a grid of `numCells` cells. -/
def clickNext (indices : List Int) (numCells : Nat) : List Nat :=
  match indices with
  | [] => []
  | index :: rest =>
    let cellIndex : Int := index - 1
    if 0 ≤ cellIndex ∧ cellIndex < (numCells : Int) then
      cellIndex.toNat :: clickNext rest numCells
    else
      clickNext rest numCells

/-! ## The interactive-grid challenge loop

From `autoSolveCaptcha` (`captchaTools.ts` lines 566-609, identical in
`CaptchaSolver.ts` lines 572-614), the `while (true)` loop entered on a
`recaptcha`/`hcaptcha` detection. Each pass: check `isChallengePresent`
(success exit when absent), increment `iteration`, run `solveVisualCaptcha`
(failure exit when it does not succeed), wait, and exit with the safety
message when `iteration > 20`. The page's presence answers and the model's
round results are indexed by the pass number. -/

/-- One round of `solveVisualCaptcha`: the model's `selectedImages` list and
whether `clickCaptchaImages` reported the clicks applied. -/
structure GridRound where
  selectedImages : List Int
  clicked : Bool
deriving DecidableEq, Repr

/-- `solveVisualCaptcha` reports success exactly when the model selected at
least one image and the click script succeeded (`captchaTools.ts` lines
278-296). -/
def roundSucceeds (r : GridRound) : Bool :=
  !r.selectedImages.isEmpty && r.clicked

/-- Outcome of the `while (true)` loop, tagged with the final value of the
`iteration` counter used in the returned message. -/
inductive CaptchaLoopResult where
  | resolved (iterations : Nat)
  | roundFailed (iterations : Nat)
  | exhausted (iterations : Nat)
deriving DecidableEq, Repr

/-- The `while (true)` loop of `autoSolveCaptcha`, entered with
`iteration = 0` and pass number `0`. `present k` is what
`isChallengePresent` returns at the start of pass `k`; `rounds k` is the
round result of `solveVisualCaptcha` during pass `k`. -/
def autoSolveCaptchaLoop (present : Nat → Bool) (rounds : Nat → GridRound)
    (iteration pass : Nat) : CaptchaLoopResult :=
  if present pass = false then
    CaptchaLoopResult.resolved iteration
  else
    let it := iteration + 1
    if roundSucceeds (rounds pass) = false then
      CaptchaLoopResult.roundFailed it
    else if 20 < it then
      CaptchaLoopResult.exhausted it
    else
      autoSolveCaptchaLoop present rounds it (pass + 1)
termination_by 21 - iteration
decreasing_by omega

/-! ## The tool namespace and its merge

From `LLMClient.ts`: `initializeBuiltInTools` (lines 73-95) builds
`this.builtInTools = { ...keyboardTools, ...browserTools }` and
`streamResponse` (lines 307-332) builds
`const allTools = { ...this.builtInTools, ...this.mcpTools }`.
A JavaScript object literal with spreads is modelled as an association
list in which a later binding for a key shadows every earlier one, with
`jsObjLookup` giving property access. The descriptor records carry their
origin; executors and schemas are irrelevant to the merge and omitted. -/

/-- The four descriptor origins named by the specification. -/
inductive ToolOrigin where
  | keyboard
  | browser
  | captcha
  | mcp
deriving DecidableEq, Repr

/-- A tool descriptor as the registry sees it: its name and the origin that
contributed it. -/
structure ToolDescr where
  name : String
  origin : ToolOrigin
deriving DecidableEq, Repr

/-- Property lookup on a JavaScript object built by spreads: the last
binding of a key wins. -/
def jsObjLookup {α : Type} (obj : List (String × α)) (key : String) : Option α :=
  obj.foldl (fun acc kv => if kv.1 = key then some kv.2 else acc) none

/-- The object spread `{ ...a, ...b }`: all bindings of `a` then all of
`b`, so `b`'s bindings shadow `a`'s under `jsObjLookup`. -/
def jsSpread {α : Type} (a b : List (String × α)) : List (String × α) :=
  a ++ b

/-- The object returned by `createKeyboardShortcutTools`
(`keyboardShortcutTools.ts`). -/
def createKeyboardShortcutTools : List (String × ToolDescr) :=
  [("addKeyboardShortcut", ⟨"addKeyboardShortcut", ToolOrigin.keyboard⟩),
   ("removeKeyboardShortcut", ⟨"removeKeyboardShortcut", ToolOrigin.keyboard⟩),
   ("listKeyboardShortcuts", ⟨"listKeyboardShortcuts", ToolOrigin.keyboard⟩),
   ("updateKeyboardShortcut", ⟨"updateKeyboardShortcut", ToolOrigin.keyboard⟩)]

/-- The object returned by `createBrowserAutomationTools`
(`browserAutomationTools.ts`). -/
def createBrowserAutomationTools : List (String × ToolDescr) :=
  [("executeJavaScript", ⟨"executeJavaScript", ToolOrigin.browser⟩),
   ("navigateToUrl", ⟨"navigateToUrl", ToolOrigin.browser⟩),
   ("clickElement", ⟨"clickElement", ToolOrigin.browser⟩),
   ("typeText", ⟨"typeText", ToolOrigin.browser⟩),
   ("getPageInfo", ⟨"getPageInfo", ToolOrigin.browser⟩),
   ("getInteractiveElements", ⟨"getInteractiveElements", ToolOrigin.browser⟩),
   ("extractData", ⟨"extractData", ToolOrigin.browser⟩),
   ("waitForElement", ⟨"waitForElement", ToolOrigin.browser⟩),
   ("screenshot", ⟨"screenshot", ToolOrigin.browser⟩)]

/-- The object returned by `createCaptchaTools` (`captchaTools.ts` lines
667-911). Exported from `tools/index.ts` but never called from
`LLMClient.ts`, so these descriptors reach no merge site. -/
def createCaptchaTools : List (String × ToolDescr) :=
  [("detectCaptcha", ⟨"detectCaptcha", ToolOrigin.captcha⟩),
   ("solveCaptcha", ⟨"solveCaptcha", ToolOrigin.captcha⟩),
   ("solveTextCaptcha", ⟨"solveTextCaptcha", ToolOrigin.captcha⟩),
   ("solveImageCaptcha", ⟨"solveImageCaptcha", ToolOrigin.captcha⟩),
   ("fillCaptchaAnswer", ⟨"fillCaptchaAnswer", ToolOrigin.captcha⟩)]

/-- `this.builtInTools = { ...keyboardTools, ...browserTools }` from
`LLMClient.initializeBuiltInTools`. -/
def initializeBuiltInTools : List (String × ToolDescr) :=
  jsSpread createKeyboardShortcutTools createBrowserAutomationTools

/-- `const allTools = { ...this.builtInTools, ...this.mcpTools }` from
`LLMClient.streamResponse`; `mcpTools` is whatever `initializeMCPTools`
accumulated from the connected servers. -/
def streamResponseAllTools (mcpTools : List (String × ToolDescr)) :
    List (String × ToolDescr) :=
  jsSpread initializeBuiltInTools mcpTools

/-! ## The system prompt

From `LLMClient.buildSystemPrompt` (lines 240-300) and
`LLMClient.truncateText` (lines 302-305): a fixed `parts` array, a
conditionally pushed URL line, a conditionally pushed truncated page-text
block, two fixed closing lines, joined with `"\n"`. The `string | null`
parameters become `Option String`; the JavaScript truthiness tests
`if (url)` / `if (pageText)` are false both on `null` and on the empty
string. -/

/-- `MAX_CONTEXT_LENGTH` from `LLMClient.ts` line 43. -/
def MAX_CONTEXT_LENGTH : Nat := 4000

/-- `truncateText` from `LLMClient.ts` lines 302-305. -/
def truncateText (text : String) (maxLength : Nat) : String :=
  if text.length ≤ maxLength then text
  else text.take maxLength ++ "..."

/-- The fixed opening entries of the `parts` array of `buildSystemPrompt`. -/
def promptPreamble : List String :=
  ["You are a powerful AI assistant integrated into a web browser with the ability to automate tasks and execute code.",
   "You can analyze web pages, interact with them, and automate workflows for the user.",
   "The user's messages may include screenshots of the current page as the first image.",
   "",
   "=== KEYBOARD SHORTCUTS ===",
   "You can manage keyboard shortcuts for automations and workflows:",
   "- 'addKeyboardShortcut': Create shortcuts with 3 action types:",
   "  - 'code': Execute JavaScript immediately when pressed (no AI involved)",
   "  - 'prompt': Send a message to you (the AI) when pressed",
   "  - 'both': Execute code AND send a prompt",
   "- 'removeKeyboardShortcut': Remove existing shortcuts",
   "- 'listKeyboardShortcuts': See all registered shortcuts",
   "- 'updateKeyboardShortcut': Modify existing shortcuts",
   "",
   "For immediate actions (like clicking a button, scrolling, or toggling something), use actionType='code'.",
   "For tasks requiring AI reasoning, use actionType='prompt'.",
   "Use accelerators like 'CmdOrCtrl+Shift+1', 'Alt+1', etc. Avoid common shortcuts (Ctrl+C, Ctrl+V, Ctrl+T, etc.).",
   "",
   "IMPORTANT: When creating shortcuts with prompts, make them GENERIC and REUSABLE:",
   "- GOOD: 'Summarize the current page and create a relevant Linear task based on the content'",
   "- Prompts should work on ANY page, not just specific URLs or topics",
   "- Let the code extract page-specific details (title, URL, content)",
   "- Keep team names/IDs if they're part of the user's workflow, but remove specific page references",
   "",
   "=== CODE EXECUTION & PAGE AUTOMATION ===",
   "You can execute JavaScript and automate interactions on the current page:",
   "- 'executeJavaScript': Run any JavaScript code on the page (DOM manipulation, data extraction, etc.)",
   "- 'navigateToUrl': Navigate to a URL",
   "- 'clickElement': Click elements by CSS selector",
   "- 'typeText': Type text into input fields",
   "- 'getPageInfo': Get page URL, title, and text content (headings, paragraphs, lists)",
   "- 'getInteractiveElements': Get interactive elements (links, buttons, inputs, forms)",
   "- 'extractData': Extract structured data using CSS selectors",
   "- 'waitForElement': Wait for elements to appear (useful after navigation)",
   "- 'screenshot': Capture a screenshot of the current page",
   "",
   "When automating, prefer using specific tools (clickElement, typeText) over raw JavaScript when possible.",
   "For complex operations, you can chain multiple tool calls together."]

/-- The two entries pushed at the end of `buildSystemPrompt`. -/
def promptTail : List String :=
  ["\nPlease provide helpful, accurate, and contextual responses about the current webpage.",
   "If the user asks about specific content, refer to the page content and/or screenshot provided."]

/-- The full `parts` array of `buildSystemPrompt` for the given inputs.
`if (url) parts.push(...)` and `if (pageText) parts.push(...)` contribute
their entry only for a non-null, non-empty string. -/
def promptParts (url pageText : Option String) : List String :=
  promptPreamble
    ++ (match url with
        | some u => if u = "" then [] else ["\nCurrent page URL: " ++ u]
        | none => [])
    ++ (match pageText with
        | some t =>
          if t = "" then []
          else ["\nPage content (text):\n" ++ truncateText t MAX_CONTEXT_LENGTH]
        | none => [])
    ++ promptTail

/-- `buildSystemPrompt` from `LLMClient.ts` lines 240-300:
`parts.join("\n")`. -/
def buildSystemPrompt (url pageText : Option String) : String :=
  String.intercalate "\n" (promptParts url pageText)

/-- Whether some entry of the `parts` array is the URL line, that is,
starts with the fixed text `"\nCurrent page URL: "`. -/
def hasUrlLinePart (parts : List String) : Bool :=
  parts.any (fun p => "\nCurrent page URL: ".data.isPrefixOf p.data)

/-- A page text of 4001 identical characters, used to instantiate the
over-the-cap truncation case on a concrete input. -/
def longPageText : String :=
  String.mk (List.replicate 4001 'a')

/-! ## The multi-step conversation loop

Modelled from the spec: the bounded multi-step tool-calling loop is the
internal loop of the `ai` library's `streamText`, which is not part of this
repository; `LLMClient.streamResponse` (lines 322-329) only configures it
with `stopWhen: stepCountIs(10)`. Following §4.5 of the specification: each
step invokes the model once, appending its text to the accumulated answer;
when the step produced tool calls the loop re-invokes the model with the
enlarged context, up to the fixed ceiling of 10 steps; reaching the ceiling
is not an error — the loop exits and the accumulated text is the final
answer. -/

/-- What the model produces during one step: the streamed text and whether
the step requested any tool calls. -/
structure StepRound where
  text : String
  hasToolCalls : Bool
deriving DecidableEq, Repr

/-- Modelled from the spec: the multi-step loop of `streamText`.
`respond k` is the model's output for step `k` (0-based); `acc` is the text
accumulated so far, `stepIndex` the number of completed steps, `maxSteps`
the `stopWhen: stepCountIs(...)` ceiling. Returns the final accumulated
text and the number of steps performed. -/
def stepLoop (respond : Nat → StepRound) (acc : String)
    (stepIndex maxSteps : Nat) : String × Nat :=
  let r := respond stepIndex
  let acc' := acc ++ r.text
  let steps := stepIndex + 1
  if r.hasToolCalls = true ∧ steps < maxSteps then
    stepLoop respond acc' steps maxSteps
  else
    (acc', steps)
termination_by maxSteps - stepIndex
decreasing_by omega

/-- Modelled from the spec: one user turn of `streamResponse`, driving the
step loop from an empty answer with the configured ceiling
`stopWhen: stepCountIs(10)`. -/
def streamResponseSteps (respond : Nat → StepRound) : String × Nat :=
  stepLoop respond "" 0 10

/-! ## The tool-activity log of the sidebar

From `handleChatResponse` in
`src/renderer/sidebar/src/contexts/ChatContext.tsx` (lines 182-204): on an
incoming tool result, scan the activity list newest-to-oldest
(`[...prev].reverse().findIndex(...)`) for the nearest entry with the same
tool name and status `"calling"`, and replace exactly that entry by a copy
marked `"complete"` carrying the result; when no entry matches, the list is
returned unchanged. -/

/-- The status of a `ToolActivity` entry. -/
inductive ActivityStatus where
  | calling
  | complete
  | error
deriving DecidableEq, Repr

/-- A `ToolActivity` entry of the sidebar's activity log. -/
structure ToolActivity where
  id : String
  toolName : String
  status : ActivityStatus
  args : Option String := none
  result : Option String := none
  timestamp : Nat := 0
deriving DecidableEq, Repr

/-- The `findIndex` predicate: same tool name, still `"calling"`. -/
def matchesCallingFor (name : String) (a : ToolActivity) : Bool :=
  decide (a.toolName = name ∧ a.status = ActivityStatus.calling)

/-- The in-place replacement
`{ ...updated[actualIdx], status: "complete", result }`. -/
def completeWith (result : String) (a : ToolActivity) : ToolActivity :=
  { a with status := ActivityStatus.complete, result := some result }

/-- The tool-result branch of `handleChatResponse`: correlate an incoming
result for tool `name` with the activity log `prev`. -/
def handleToolResult (prev : List ToolActivity) (name : String)
    (result : String) : List ToolActivity :=
  match (prev.reverse).findIdx? (matchesCallingFor name) with
  | some idx => prev.modify (completeWith result) (prev.length - 1 - idx)
  | none => prev

/-! ## Helper lemmas (not tied to a single claim) -/

/-- Folding the lookup step over a list ignores the start value exactly
when the list binds the key. -/
theorem jsObjLookup_foldl_init {α : Type} (key : String) :
    ∀ (l : List (String × α)) (init : Option α),
      l.foldl (fun acc kv => if kv.1 = key then some kv.2 else acc) init =
        match jsObjLookup l key with
        | some v => some v
        | none => init := by
  intro l
  induction l with
  | nil => intro init; rfl
  | cons kv l ih =>
    intro init
    show List.foldl _ (if kv.1 = key then some kv.2 else init) l = _
    rw [ih]
    have hr : jsObjLookup (kv :: l) key =
        match jsObjLookup l key with
        | some v => some v
        | none => if kv.1 = key then some kv.2 else none := by
      show List.foldl _ (if kv.1 = key then some kv.2 else none) l = _
      rw [ih]
    rw [hr]
    cases jsObjLookup l key with
    | some v => rfl
    | none => by_cases h : kv.1 = key <;> simp [h]

/-- Lookup across an object spread: the second object's binding wins. -/
theorem jsObjLookup_append {α : Type} (a b : List (String × α)) (key : String) :
    jsObjLookup (a ++ b) key =
      match jsObjLookup b key with
      | some v => some v
      | none => jsObjLookup a key := by
  show List.foldl _ none (a ++ b) = _
  rw [List.foldl_append]
  exact jsObjLookup_foldl_init key b (jsObjLookup a key)

/-- Unfolding step of `String.intercalate.go` on a cons cell. -/
theorem intercalate_go_cons (acc s a : String) (as : List String) :
    String.intercalate.go acc s (a :: as) = String.intercalate.go (acc ++ s ++ a) s as := rfl

/-- Unfolding step of `String.intercalate.go` on the empty list. -/
theorem intercalate_go_nil (acc s : String) :
    String.intercalate.go acc s [] = acc := rfl

/-- The accumulator stays an infix of the result of `String.intercalate.go`. -/
theorem intercalate_go_acc_isInfix (s : String) :
    ∀ (l : List String) (acc : String),
      acc.data <:+: (String.intercalate.go acc s l).data := by
  intro l
  induction l with
  | nil =>
    intro acc
    rw [intercalate_go_nil]
  | cons a as ih =>
    intro acc
    rw [intercalate_go_cons]
    have h1 : acc.data <+: (acc ++ s ++ a).data := by
      rw [String.data_append, String.data_append, List.append_assoc]
      exact List.prefix_append _ _
    exact List.IsInfix.trans h1.isInfix (ih (acc ++ s ++ a))

/-- Every element of the tail list is an infix of the result of
`String.intercalate.go`. -/
theorem intercalate_go_mem_isInfix (s : String) :
    ∀ (l : List String) (acc p : String), p ∈ l →
      p.data <:+: (String.intercalate.go acc s l).data := by
  intro l
  induction l with
  | nil =>
    intro acc p hp
    exact absurd hp (List.not_mem_nil p)
  | cons a as ih =>
    intro acc p hp
    rw [intercalate_go_cons]
    rcases List.mem_cons.mp hp with h | h
    · subst h
      have h1 : p.data <:+ (acc ++ s ++ p).data := by
        rw [String.data_append]
        exact List.suffix_append _ _
      exact List.IsInfix.trans h1.isInfix (intercalate_go_acc_isInfix s as _)
    · exact ih _ p h

/-- Every member of `l` is an infix of `String.intercalate s l`. -/
theorem intercalate_mem_isInfix (s p : String) (l : List String) (h : p ∈ l) :
    p.data <:+: (String.intercalate s l).data := by
  cases l with
  | nil => exact absurd h (List.not_mem_nil p)
  | cons a as =>
    have hgo : String.intercalate s (a :: as) = String.intercalate.go a s as := rfl
    rw [hgo]
    rcases List.mem_cons.mp h with h | h
    · subst h
      exact intercalate_go_acc_isInfix s as p
    · exact intercalate_go_mem_isInfix s as a p h

/-- Folding string append from a seeded accumulator factors the seed out. -/
theorem string_foldl_append (l : List String) :
    ∀ (x y : String),
      List.foldl (fun r s => r ++ s) (x ++ y) l =
        x ++ List.foldl (fun r s => r ++ s) y l := by
  induction l with
  | nil => intro x y; rfl
  | cons a l ih =>
    intro x y
    show List.foldl _ (x ++ y ++ a) l = _
    rw [String.append_assoc, ih]
    rfl

/-- `String.join` distributes over a cons cell. -/
theorem string_join_cons (a : String) (l : List String) :
    String.join (a :: l) = a ++ String.join l := by
  have h : String.join (a :: l) = List.foldl (fun r s => r ++ s) ("" ++ a) l := rfl
  rw [h, String.empty_append]
  conv_lhs => rw [← String.append_empty a]
  rw [string_foldl_append]
  rfl

/-- Every position produced by `clickNext` is a valid 0-based cell
position of the grid. -/
theorem clickNext_all_lt (indices : List Int) (numCells : Nat) :
    (clickNext indices numCells).all (fun j => decide (j < numCells)) = true := by
  induction indices with
  | nil => rfl
  | cons index rest ih =>
    rw [clickNext]
    by_cases h : 0 ≤ index - 1 ∧ index - 1 < (numCells : Int)
    · rw [if_pos h]
      simp only [List.all_cons, Bool.and_eq_true, decide_eq_true_eq]
      exact ⟨by omega, ih⟩
    · rw [if_neg h]
      exact ih

/-- C8 auxiliary: `clickNext` is the in-range filter, shifted to 0-based. -/
theorem clickNext_eq_filterMap (indices : List Int) (numCells : Nat) :
    clickNext indices numCells =
      (indices.filter (fun i => decide (1 ≤ i ∧ i ≤ (numCells : Int)))).map
        (fun i => (i - 1).toNat) := by
  induction indices with
  | nil => rfl
  | cons index rest ih =>
    rw [clickNext, List.filter_cons]
    by_cases h : 0 ≤ index - 1 ∧ index - 1 < (numCells : Int)
    · have hc : decide (1 ≤ index ∧ index ≤ (numCells : Int)) = true :=
        decide_eq_true (by omega)
      rw [if_pos h, hc, if_pos rfl, List.map_cons, ih]
    · have hc : decide (1 ≤ index ∧ index ≤ (numCells : Int)) = false :=
        decide_eq_false (by omega)
      rw [if_neg h, hc, if_neg (by simp), ih]

/-- `findIdx?` misses a list none of whose elements satisfy the predicate. -/
theorem findIdx?_eq_none_of_all {α : Type} (p : α → Bool) :
    ∀ (l : List α) (s : Nat), (∀ a ∈ l, p a = false) →
      List.findIdx? p l s = none := by
  intro l
  induction l with
  | nil => intro s _; rfl
  | cons a as ih =>
    intro s h
    rw [List.findIdx?_cons, h a (List.mem_cons_self a as)]
    simp only [Bool.false_eq_true, if_false]
    exact ih (s + 1) (fun b hb => h b (List.mem_cons_of_mem a hb))

/-- `findIdx?` returns the first index whose element satisfies the
predicate. -/
theorem findIdx?_eq_some_of_first {α : Type} (p : α → Bool) :
    ∀ (l : List α) (i s : Nat) (hi : i < l.length),
      p (l.get ⟨i, hi⟩) = true →
      (∀ (j : Nat) (hj : j < l.length), j < i → p (l.get ⟨j, hj⟩) = false) →
      List.findIdx? p l s = some (s + i) := by
  intro l
  induction l with
  | nil =>
    intro i s hi
    exact absurd hi (Nat.not_lt_zero i)
  | cons a as ih =>
    intro i s hi hp hbefore
    rw [List.findIdx?_cons]
    cases i with
    | zero =>
      have ha : p a = true := hp
      rw [ha, if_pos rfl]
      exact congrArg some (by omega)
    | succ i' =>
      have ha : p a = false := by
        have h0 : (0 : Nat) < (a :: as).length := by simp
        exact hbefore 0 h0 (Nat.succ_pos i')
      rw [ha]
      simp only [Bool.false_eq_true, if_false]
      have hi' : i' < as.length := Nat.lt_of_succ_lt_succ hi
      have hb' : ∀ (j : Nat) (hj : j < as.length), j < i' →
          p (as.get ⟨j, hj⟩) = false := by
        intro j hj hji
        exact hbefore (j + 1) (Nat.succ_lt_succ hj) (Nat.succ_lt_succ hji)
      rw [ih i' (s + 1) hi' hp hb']
      exact congrArg some (by omega)

/-- With the challenge always present and every round succeeding, the grid
loop runs until the safety check fires, with the counter at 21. -/
theorem autoSolveCaptchaLoop_exhausts (present : Nat → Bool)
    (rounds : Nat → GridRound)
    (hp : ∀ k, present k = true)
    (hr : ∀ k, roundSucceeds (rounds k) = true) :
    ∀ (n it pass : Nat), 21 - it = n → it ≤ 20 →
      autoSolveCaptchaLoop present rounds it pass =
        CaptchaLoopResult.exhausted 21 := by
  intro n
  induction n with
  | zero =>
    intro it pass hn hle
    omega
  | succ n ih =>
    intro it pass hn hle
    rw [autoSolveCaptchaLoop]
    rw [hp pass, hr pass]
    simp only [Bool.true_eq_false, if_false]
    by_cases h20 : 20 < it + 1
    · rw [if_pos h20]
      have : it = 20 := by omega
      rw [this]
    · rw [if_neg h20]
      exact ih (it + 1) (pass + 1) (by omega) (by omega)

/-- The step loop performs between one and `maxSteps` steps and returns the
accumulated text of exactly the steps it performed. -/
theorem stepLoop_spec (respond : Nat → StepRound) :
    ∀ (n stepIndex : Nat) (acc : String) (maxSteps : Nat),
      maxSteps - stepIndex = n → stepIndex < maxSteps →
      ∃ steps, stepIndex < steps ∧ steps ≤ maxSteps ∧
        stepLoop respond acc stepIndex maxSteps =
          (acc ++ String.join
            ((List.range' stepIndex (steps - stepIndex)).map
              (fun k => (respond k).text)), steps) := by
  intro n
  induction n with
  | zero =>
    intro stepIndex acc maxSteps hn hlt
    omega
  | succ n ih =>
    intro stepIndex acc maxSteps hn hlt
    rw [stepLoop]
    by_cases hc : (respond stepIndex).hasToolCalls = true ∧ stepIndex + 1 < maxSteps
    · rw [if_pos hc]
      obtain ⟨steps, h1, h2, heq⟩ :=
        ih (stepIndex + 1) (acc ++ (respond stepIndex).text) maxSteps
          (by omega) hc.2
      refine ⟨steps, by omega, h2, ?_⟩
      rw [heq]
      have hrange : steps - stepIndex = (steps - (stepIndex + 1)) + 1 := by omega
      rw [hrange, List.range'_succ, List.map_cons, string_join_cons,
        String.append_assoc]
    · rw [if_neg hc]
      refine ⟨stepIndex + 1, by omega, by omega, ?_⟩
      have hrange : stepIndex + 1 - stepIndex = 1 := by omega
      rw [hrange, List.range'_succ]
      have hz : List.range' (stepIndex + 1) 0 = [] := rfl
      rw [hz, List.map_cons, List.map_nil, string_join_cons]
      have hj : String.join ([] : List String) = "" := rfl
      rw [hj, String.append_empty]

/-- A list is a `isPrefixOf` of itself extended on the right. -/
theorem isPrefixOf_append_self (l r : List Char) :
    l.isPrefixOf (l ++ r) = true := by
  rw [List.isPrefixOf_iff_prefix]
  exact List.prefix_append _ _

/-- The `parts` array contains a URL line exactly when a non-empty URL was
supplied: the preamble, the page-text block (which starts with
`"\nPage"`) and the closing lines never match the URL-line prefix. -/
theorem hasUrlLinePart_promptParts (url pageText : Option String) :
    hasUrlLinePart (promptParts url pageText) =
      match url with
      | some u => if u = "" then false else true
      | none => false := by
  have hpre : promptPreamble.any
      (fun p => "\nCurrent page URL: ".data.isPrefixOf p.data) = false := by
    decide
  have htail : promptTail.any
      (fun p => "\nCurrent page URL: ".data.isPrefixOf p.data) = false := by
    decide
  have hurl : ∀ (u : String),
      "\nCurrent page URL: ".data.isPrefixOf
        ("\nCurrent page URL: " ++ u).data = true := by
    intro u
    rw [String.data_append]
    exact isPrefixOf_append_self _ _
  cases url with
  | none =>
    cases pageText with
    | none =>
      simp [hasUrlLinePart, promptParts, List.any_append, hpre, htail]
    | some t =>
      by_cases ht : t = ""
      · subst ht
        simp [hasUrlLinePart, promptParts, List.any_append, hpre, htail]
      · simp [hasUrlLinePart, promptParts, List.any_append, hpre, htail, ht]
        rfl
  | some u =>
    by_cases hu : u = ""
    · subst hu
      cases pageText with
      | none =>
        simp [hasUrlLinePart, promptParts, List.any_append, hpre, htail]
      | some t =>
        by_cases ht : t = ""
        · subst ht
          simp [hasUrlLinePart, promptParts, List.any_append, hpre, htail]
        · simp [hasUrlLinePart, promptParts, List.any_append, hpre, htail, ht]
          rfl
    · simp [hasUrlLinePart, promptParts, List.any_append, hpre, htail, hu,
        hurl u]

/-! ## Theorems for the claims -/

/-- C1 (amended): in a run of the interactive-grid loop in which the page's
challenge-presence check never reports absent and every round's model
judgment yields a non-empty selection that is applied successfully, the loop
terminates with the exhausted (failure) outcome at exactly iteration 21 —
the safety check `iteration > 20` fires only after the 21st round. -/
theorem autoSolveCaptcha_grid_exhausted_at_21
    (present : Nat → Bool) (rounds : Nat → GridRound)
    (hp : ∀ k, present k = true)
    (hr : ∀ k, roundSucceeds (rounds k) = true) :
    autoSolveCaptchaLoop present rounds 0 0 = CaptchaLoopResult.exhausted 21 :=
  autoSolveCaptchaLoop_exhausts present rounds hp hr 21 0 0 rfl (by omega)

/-- C1 witness: the amended theorem applied to a page that always reports
the challenge present and a model that always selects image 1 successfully. -/
theorem autoSolveCaptcha_grid_exhausted_at_21_witness :
    (∀ k, (fun _ : Nat => true) k = true) ∧
      (∀ k, roundSucceeds ((fun _ : Nat => GridRound.mk [1] true) k) = true) ∧
      autoSolveCaptchaLoop (fun _ => true) (fun _ => GridRound.mk [1] true) 0 0 =
        CaptchaLoopResult.exhausted 21 :=
  ⟨fun _ => rfl, fun _ => rfl,
   autoSolveCaptcha_grid_exhausted_at_21 (fun _ => true)
     (fun _ => GridRound.mk [1] true) (fun _ => rfl) (fun _ => rfl)⟩

/-- C1 counterexample to the claim as stated: with the challenge always
present and every round succeeding, the loop does not exhaust at iteration
20 — it exhausts at iteration 21. -/
theorem autoSolveCaptcha_grid_not_exhausted_at_20 :
    autoSolveCaptchaLoop (fun _ => true) (fun _ => GridRound.mk [1] true) 0 0 ≠
        CaptchaLoopResult.exhausted 20 ∧
      autoSolveCaptchaLoop (fun _ => true) (fun _ => GridRound.mk [1] true) 0 0 =
        CaptchaLoopResult.exhausted 21 := by
  have h := autoSolveCaptchaLoop_exhausts (fun _ => true)
    (fun _ => GridRound.mk [1] true) (fun _ => rfl) (fun _ => rfl) 21 0 0 rfl
    (by omega)
  constructor
  · rw [h]
    intro hcon
    exact absurd (CaptchaLoopResult.exhausted.injEq 21 20 ▸ hcon) (by omega)
  · exact h

/-- C2 (amended): the tool namespace passed to the model is merged in the
order shortcut-management tools, then built-in automation tools, then MCP
tools, with later origins silently overwriting earlier ones on name
collision and no error raised; the challenge-solving tools are defined but
never merged, so only three origins can be present. -/
theorem streamResponse_tool_merge
    (mcpTools : List (String × ToolDescr)) (x : String) :
    (jsObjLookup (streamResponseAllTools mcpTools) x =
        match jsObjLookup mcpTools x with
        | some d => some d
        | none =>
          match jsObjLookup createBrowserAutomationTools x with
          | some d => some d
          | none => jsObjLookup createKeyboardShortcutTools x) ∧
      (∀ d, jsObjLookup mcpTools x = some d →
        jsObjLookup (streamResponseAllTools mcpTools) x = some d) ∧
      (∀ d, (x, d) ∈ createCaptchaTools → jsObjLookup mcpTools x = none →
        jsObjLookup (streamResponseAllTools mcpTools) x = none) := by
  have h1 := jsObjLookup_append initializeBuiltInTools mcpTools x
  have h2 := jsObjLookup_append createKeyboardShortcutTools
    createBrowserAutomationTools x
  refine ⟨?_, ?_, ?_⟩
  · show jsObjLookup (initializeBuiltInTools ++ mcpTools) x = _
    rw [h1]
    have h0 : initializeBuiltInTools =
        createKeyboardShortcutTools ++ createBrowserAutomationTools := rfl
    rw [h0, h2]
    cases jsObjLookup mcpTools x with
    | some d => rfl
    | none => cases jsObjLookup createBrowserAutomationTools x <;> rfl
  · intro d hd
    show jsObjLookup (initializeBuiltInTools ++ mcpTools) x = some d
    rw [h1, hd]
  · intro d hmem hnone
    show jsObjLookup (initializeBuiltInTools ++ mcpTools) x = none
    rw [h1, hnone]
    have hx : x = "detectCaptcha" ∨ x = "solveCaptcha" ∨ x = "solveTextCaptcha" ∨
        x = "solveImageCaptcha" ∨ x = "fillCaptchaAnswer" := by
      simp only [createCaptchaTools, List.mem_cons, List.not_mem_nil, or_false,
        Prod.mk.injEq] at hmem
      tauto
    rcases hx with h | h | h | h | h <;> rw [h] <;> rfl

/-- C2 witness: the amended theorem applied with no MCP tools connected and
the name of the challenge-solving tool `solveCaptcha`. -/
theorem streamResponse_tool_merge_witness :
    (("solveCaptcha", ToolDescr.mk "solveCaptcha" ToolOrigin.captcha) ∈
        createCaptchaTools) ∧
      jsObjLookup (streamResponseAllTools []) "solveCaptcha" = none :=
  ⟨by decide,
   (streamResponse_tool_merge [] "solveCaptcha").2.2
     (ToolDescr.mk "solveCaptcha" ToolOrigin.captcha) (by decide) rfl⟩

/-- C2 counterexample to the claim as stated: `solveCaptcha` is contributed
by the challenge-solving origin, yet it resolves to nothing in the merged
namespace, and no descriptor of captcha origin is present there at all —
the challenge-solving origin is never merged. -/
theorem streamResponse_tool_merge_counterexample :
    jsObjLookup (streamResponseAllTools []) "solveCaptcha" = none ∧
      jsObjLookup createCaptchaTools "solveCaptcha" =
        some (ToolDescr.mk "solveCaptcha" ToolOrigin.captcha) ∧
      (streamResponseAllTools []).all
        (fun kv => decide (kv.2.origin ≠ ToolOrigin.captcha)) = true := by
  refine ⟨rfl, rfl, by decide⟩

/-- C3: for any two origins merged by object spread, a name defined by both
resolves to the later origin's descriptor (last-write-wins), and a name
defined only by the earlier origin still resolves to that origin's
descriptor. -/
theorem toolRegistry_last_write_wins {α : Type}
    (a b : List (String × α)) (x : String) :
    (∀ db, jsObjLookup b x = some db →
        jsObjLookup (jsSpread a b) x = some db) ∧
      (jsObjLookup b x = none →
        jsObjLookup (jsSpread a b) x = jsObjLookup a x) := by
  have h := jsObjLookup_append a b x
  constructor
  · intro db hdb
    show jsObjLookup (a ++ b) x = some db
    rw [h, hdb]
  · intro hn
    show jsObjLookup (a ++ b) x = jsObjLookup a x
    rw [h, hn]

/-- C3 witness: two origins both defining `"x"`: the second one's
descriptor wins; a name `"y"` defined only by the first origin resolves to
the first origin's descriptor. -/
theorem toolRegistry_last_write_wins_witness :
    jsObjLookup [("x", ToolDescr.mk "x" ToolOrigin.mcp)] "x" =
        some (ToolDescr.mk "x" ToolOrigin.mcp) ∧
      jsObjLookup
        (jsSpread [("x", ToolDescr.mk "x" ToolOrigin.keyboard),
                   ("y", ToolDescr.mk "y" ToolOrigin.keyboard)]
          [("x", ToolDescr.mk "x" ToolOrigin.mcp)]) "x" =
        some (ToolDescr.mk "x" ToolOrigin.mcp) ∧
      jsObjLookup
        (jsSpread [("x", ToolDescr.mk "x" ToolOrigin.keyboard),
                   ("y", ToolDescr.mk "y" ToolOrigin.keyboard)]
          [("x", ToolDescr.mk "x" ToolOrigin.mcp)]) "y" =
        jsObjLookup [("x", ToolDescr.mk "x" ToolOrigin.keyboard),
                     ("y", ToolDescr.mk "y" ToolOrigin.keyboard)] "y" :=
  ⟨by decide,
   (toolRegistry_last_write_wins
       [("x", ToolDescr.mk "x" ToolOrigin.keyboard),
        ("y", ToolDescr.mk "y" ToolOrigin.keyboard)]
       [("x", ToolDescr.mk "x" ToolOrigin.mcp)] "x").1
     (ToolDescr.mk "x" ToolOrigin.mcp) (by decide),
   (toolRegistry_last_write_wins
       [("x", ToolDescr.mk "x" ToolOrigin.keyboard),
        ("y", ToolDescr.mk "y" ToolOrigin.keyboard)]
       [("x", ToolDescr.mk "x" ToolOrigin.mcp)] "y").2 (by decide)⟩

/-- C9: a thrown executor exception never escapes `withErrorHandling`: it is
converted into a `ToolResult` with `success = false` whose error text is the
thrown `Error`'s message (or the string rendering of a non-`Error` value),
while a returned result passes through unchanged. -/
theorem withErrorHandling_converts_throws (e : ThrownValue) (r : ToolResult) :
    withErrorHandling (Except.error e) =
        { success := false, message := none, error := some (thrownText e) } ∧
      (withErrorHandling (Except.error e)).success = false ∧
      withErrorHandling (Except.ok r) = r := by
  exact ⟨rfl, rfl, rfl⟩

/-- C10: with no active tab, every tool short-circuits to the fixed
`"No active tab available"` failure result; the outcome is independent of
the tool body (the body is never invoked), and with a tab present the body
runs on that tab. -/
theorem withActiveTab_no_tab (τ : Type) (fn g : τ → ToolResult) (t : τ) :
    withActiveTab (none : Option τ) fn =
        { success := false, message := none, error := some "No active tab available" } ∧
      withActiveTab (none : Option τ) fn = withActiveTab (none : Option τ) g ∧
      withActiveTab (some t) fn = fn t := by
  exact ⟨rfl, rfl, rfl⟩

/-- C8: every model-provided grid index is shifted from 1-based to 0-based,
indices whose shifted value is outside `[0, numCells)` are silently dropped
while the remaining clicks still happen, and every clicked position is a
valid cell position. -/
theorem clickNext_one_based_skip (indices : List Int) (numCells : Nat) :
    clickNext indices numCells =
        (indices.filter (fun i => decide (1 ≤ i ∧ i ≤ (numCells : Int)))).map
          (fun i => (i - 1).toNat) ∧
      (clickNext indices numCells).all (fun j => decide (j < numCells)) = true := by
  exact ⟨clickNext_eq_filterMap indices numCells, clickNext_all_lt indices numCells⟩

/-- C4 (amended): `buildSystemPrompt` is total; for page text over the
4000-character cap the prompt contains exactly the first 4000 characters
followed by the ellipsis marker; page text at or under the cap is included
unchanged; and the "Current page URL" line is present in the `parts` array
if and only if a non-empty URL was supplied (null or empty inputs are
simply omitted). -/
theorem buildSystemPrompt_context (url pageText : Option String) :
    (∀ t, pageText = some t → MAX_CONTEXT_LENGTH < t.length →
        (t.take MAX_CONTEXT_LENGTH ++ "...").data <:+:
          (buildSystemPrompt url pageText).data) ∧
      (∀ t, pageText = some t → t.length ≤ MAX_CONTEXT_LENGTH →
        t.data <:+: (buildSystemPrompt url pageText).data) ∧
      (∀ u, url = some u → u ≠ "" →
        ("\nCurrent page URL: " ++ u).data <:+:
          (buildSystemPrompt url pageText).data) ∧
      (hasUrlLinePart (promptParts url pageText) = true ↔
        ∃ u, url = some u ∧ u ≠ "") := by
  refine ⟨?_, ?_, ?_, ?_⟩
  · intro t ht hlen
    subst ht
    have ht0 : ¬ t = "" := by
      intro h0
      subst h0
      rw [show ("" : String).length = 0 from rfl,
        show MAX_CONTEXT_LENGTH = 4000 from rfl] at hlen
      omega
    have hmem : ("\nPage content (text):\n" ++
        truncateText t MAX_CONTEXT_LENGTH) ∈ promptParts url (some t) := by
      simp only [promptParts]
      rw [if_neg ht0]
      simp [List.mem_append]
    have htr : truncateText t MAX_CONTEXT_LENGTH =
        t.take MAX_CONTEXT_LENGTH ++ "..." := by
      rw [truncateText, if_neg (by omega)]
    have hkey : ∀ (X : String),
        X.data <:+: ("\nPage content (text):\n" ++ X).data := by
      intro X
      rw [String.data_append]
      exact (List.suffix_append _ _).isInfix
    have h3 := List.IsInfix.trans (hkey (truncateText t MAX_CONTEXT_LENGTH))
      (intercalate_mem_isInfix "\n" _ _ hmem)
    rw [htr] at h3
    exact h3
  · intro t ht hlen
    subst ht
    by_cases ht0 : t = ""
    · subst ht0
      simp
    · have hmem : ("\nPage content (text):\n" ++
          truncateText t MAX_CONTEXT_LENGTH) ∈ promptParts url (some t) := by
        simp only [promptParts]
        rw [if_neg ht0]
        simp [List.mem_append]
      have htr : truncateText t MAX_CONTEXT_LENGTH = t := by
        rw [truncateText, if_pos hlen]
      have hkey : ∀ (X : String),
          X.data <:+: ("\nPage content (text):\n" ++ X).data := by
        intro X
        rw [String.data_append]
        exact (List.suffix_append _ _).isInfix
      have h3 := List.IsInfix.trans (hkey (truncateText t MAX_CONTEXT_LENGTH))
        (intercalate_mem_isInfix "\n" _ _ hmem)
      rw [htr] at h3
      exact h3
  · intro u hu hne
    subst hu
    have hmem : ("\nCurrent page URL: " ++ u) ∈ promptParts (some u) pageText := by
      simp only [promptParts]
      rw [if_neg hne]
      simp [List.mem_append]
    exact intercalate_mem_isInfix "\n" _ _ hmem
  · rw [hasUrlLinePart_promptParts]
    cases url with
    | none => simp
    | some u =>
      by_cases hu : u = ""
      · subst hu
        simp
      · simp [hu]

/-- C4 witness: the amended theorem applied to a 4001-character page text
and the URL `https://example.com`. -/
theorem buildSystemPrompt_context_witness :
    MAX_CONTEXT_LENGTH < longPageText.length ∧
      (longPageText.take MAX_CONTEXT_LENGTH ++ "...").data <:+:
        (buildSystemPrompt (some "https://example.com") (some longPageText)).data ∧
      ("\nCurrent page URL: " ++ "https://example.com").data <:+:
        (buildSystemPrompt (some "https://example.com") (some longPageText)).data := by
  have hlen : MAX_CONTEXT_LENGTH < longPageText.length := by
    have h1 : longPageText.length = 4001 := by
      show (List.replicate 4001 'a').length = 4001
      exact List.length_replicate 4001 'a'
    rw [h1, show MAX_CONTEXT_LENGTH = 4000 from rfl]
    omega
  refine ⟨hlen, ?_, ?_⟩
  · exact (buildSystemPrompt_context (some "https://example.com")
      (some longPageText)).1 longPageText rfl hlen
  · exact (buildSystemPrompt_context (some "https://example.com")
      (some longPageText)).2.2.1 "https://example.com" rfl (by decide)

/-- C4 counterexample to the claim as stated: supplying the empty-string
URL produces a prompt identical to supplying no URL at all, with no URL
line in the `parts` array — the URL line is not present whenever a URL was
supplied, only whenever a non-empty one was. -/
theorem buildSystemPrompt_empty_url_counterexample :
    buildSystemPrompt (some "") none = buildSystemPrompt none none ∧
      hasUrlLinePart (promptParts (some "") none) = false := by
  have hparts : promptParts (some "") none = promptParts none none := rfl
  constructor
  · show String.intercalate "\n" (promptParts (some "") none) =
      String.intercalate "\n" (promptParts none none)
    rw [hparts]
  · rw [hasUrlLinePart_promptParts]
    rfl

/-- C5 (confirmed, modelled from the spec): every user turn performs at
least one and at most 10 model steps, the loop terminates (it is a total
function), and the final answer is exactly the text accumulated over the
performed steps — reaching the ceiling is not an error. -/
theorem streamResponse_step_ceiling (respond : Nat → StepRound) :
    ∃ steps, 1 ≤ steps ∧ steps ≤ 10 ∧
      streamResponseSteps respond =
        (String.join ((List.range steps).map (fun k => (respond k).text)),
          steps) := by
  obtain ⟨steps, h1, h2, heq⟩ := stepLoop_spec respond 10 0 "" 10 rfl (by omega)
  refine ⟨steps, by omega, h2, ?_⟩
  rw [show streamResponseSteps respond = stepLoop respond "" 0 10 from rfl, heq,
    List.range_eq_range']
  rw [Nat.sub_zero, String.empty_append]

/-- C6 (confirmed): an incoming tool result is correlated by scanning the
activity list newest-to-oldest for the nearest entry with the same tool
name and status calling, and exactly that entry is marked complete; with
no matching entry the list is unchanged; in the concrete scenario
calling(toolA), calling(toolA) followed by a result for toolA, the second
entry is completed, not the first. -/
theorem handleToolResult_most_recent (prev : List ToolActivity)
    (name result : String) (k : Nat) (hk : k < prev.length) :
    (matchesCallingFor name (prev.get ⟨k, hk⟩) = true →
        (∀ (j : Nat) (hj : j < prev.length), k < j →
          matchesCallingFor name (prev.get ⟨j, hj⟩) = false) →
        handleToolResult prev name result =
          prev.modify (completeWith result) k) ∧
      ((∀ a ∈ prev, matchesCallingFor name a = false) →
        handleToolResult prev name result = prev) ∧
      handleToolResult
          [ToolActivity.mk "t1" "toolA" ActivityStatus.calling none none 0,
           ToolActivity.mk "t2" "toolA" ActivityStatus.calling none none 1]
          "toolA" "done" =
        [ToolActivity.mk "t1" "toolA" ActivityStatus.calling none none 0,
         ToolActivity.mk "t2" "toolA" ActivityStatus.complete none (some "done") 1] := by
  refine ⟨?_, ?_, by decide⟩
  · intro hmatch hafter
    simp only [handleToolResult]
    have hrevlen : prev.reverse.length = prev.length := List.length_reverse prev
    have hi : prev.length - 1 - k < prev.reverse.length := by omega
    have hgeti : prev.reverse.get ⟨prev.length - 1 - k, hi⟩ = prev.get ⟨k, hk⟩ := by
      rw [List.get_eq_getElem, List.get_eq_getElem, List.getElem_reverse]
      have hidx : prev.length - 1 - (prev.length - 1 - k) = k := by omega
      simp only [hidx]
    have hbefore : ∀ (j : Nat) (hj : j < prev.reverse.length),
        j < prev.length - 1 - k →
        matchesCallingFor name (prev.reverse.get ⟨j, hj⟩) = false := by
      intro j hj hji
      have hj' : prev.length - 1 - j < prev.length := by omega
      have hgetj : prev.reverse.get ⟨j, hj⟩ = prev.get ⟨prev.length - 1 - j, hj'⟩ := by
        rw [List.get_eq_getElem, List.get_eq_getElem, List.getElem_reverse]
      rw [hgetj]
      exact hafter (prev.length - 1 - j) hj' (by omega)
    have hfind : prev.reverse.findIdx? (matchesCallingFor name) =
        some (prev.length - 1 - k) := by
      have h := findIdx?_eq_some_of_first (matchesCallingFor name) prev.reverse
        (prev.length - 1 - k) 0 hi (hgeti ▸ hmatch) hbefore
      rw [h]
      exact congrArg some (by omega)
    rw [hfind]
    show List.modify (completeWith result) (prev.length - 1 - (prev.length - 1 - k)) prev =
      List.modify (completeWith result) k prev
    have hidx2 : prev.length - 1 - (prev.length - 1 - k) = k := by omega
    rw [hidx2]
  · intro hnone
    simp only [handleToolResult]
    have hfind : prev.reverse.findIdx? (matchesCallingFor name) = none :=
      findIdx?_eq_none_of_all (matchesCallingFor name) prev.reverse 0
        (fun a ha => hnone a (List.mem_reverse.mp ha))
    rw [hfind]

/-- C6 witness: the correlation theorem applied to the two-entry log with
both entries calling toolA — the nearest-newest entry is the one at index
1, and exactly it is completed. -/
theorem handleToolResult_most_recent_witness :
    matchesCallingFor "toolA"
        (ToolActivity.mk "t2" "toolA" ActivityStatus.calling none none 1) = true ∧
      handleToolResult
          [ToolActivity.mk "t1" "toolA" ActivityStatus.calling none none 0,
           ToolActivity.mk "t2" "toolA" ActivityStatus.calling none none 1]
          "toolA" "done" =
        ([ToolActivity.mk "t1" "toolA" ActivityStatus.calling none none 0,
          ToolActivity.mk "t2" "toolA" ActivityStatus.calling none none 1]).modify
          (completeWith "done") 1 := by
  refine ⟨by decide, ?_⟩
  have h := (handleToolResult_most_recent
    [ToolActivity.mk "t1" "toolA" ActivityStatus.calling none none 0,
     ToolActivity.mk "t2" "toolA" ActivityStatus.calling none none 1]
    "toolA" "done" 1 (by decide)).1
  exact h (by decide) (fun j hj hlt => by
    simp only [List.length_cons, List.length_nil] at hj
    omega)

/-- C7 (amended): the normalized answer keeps only ASCII alphanumeric and
whitespace characters (whitespace is kept, not stripped), holds no newline
(first line only), and is a subsequence of the model's raw answer. -/
theorem normalizeCaptchaAnswer_normalized (answer : String) :
    (normalizeCaptchaAnswer answer).data.all
        (fun c => isAsciiAlphanumeric c || isJsWhitespace c) = true ∧
      '\n' ∉ (normalizeCaptchaAnswer answer).data ∧
      List.Sublist (normalizeCaptchaAnswer answer).data answer.data := by
  have hdata : (normalizeCaptchaAnswer answer).data =
      ((jsTrim answer).data.takeWhile (fun c => c ≠ '\n')).filter
        (fun c => isAsciiAlphanumeric c || isJsWhitespace c) := rfl
  refine ⟨?_, ?_, ?_⟩
  · rw [hdata]
    exact List.all_eq_true.mpr (fun x hx => (List.mem_filter.mp hx).2)
  · rw [hdata]
    intro hmem
    have h1 : '\n' ∈ (jsTrim answer).data.takeWhile (fun c => c ≠ '\n') :=
      (List.mem_filter.mp hmem).1
    have h2 := List.mem_takeWhile_imp h1
    simp at h2
  · rw [hdata]
    have h1 : List.Sublist
        (((jsTrim answer).data.takeWhile (fun c => c ≠ '\n')).filter
          (fun c => isAsciiAlphanumeric c || isJsWhitespace c))
        ((jsTrim answer).data.takeWhile (fun c => c ≠ '\n')) :=
      List.filter_sublist _
    have h2 : List.Sublist ((jsTrim answer).data.takeWhile (fun c => c ≠ '\n'))
        (jsTrim answer).data :=
      List.takeWhile_sublist _
    have h3 : List.Sublist (jsTrim answer).data answer.data := by
      have hjt : (jsTrim answer).data =
          ((answer.data.dropWhile isJsWhitespace).reverse.dropWhile
            isJsWhitespace).reverse := rfl
      rw [hjt]
      have hrev : List.Sublist
          (((answer.data.dropWhile isJsWhitespace).reverse.dropWhile
            isJsWhitespace).reverse)
          ((answer.data.dropWhile isJsWhitespace).reverse.reverse) :=
        List.Sublist.reverse (List.dropWhile_sublist _)
      rw [List.reverse_reverse] at hrev
      exact List.Sublist.trans hrev (List.dropWhile_sublist _)
    exact List.Sublist.trans h1 (List.Sublist.trans h2 h3)

/-- C7 counterexample to the claim as stated: the model answer `"a b"` is
normalized to `"a b"` itself, which contains a space — the stored answer is
not alphanumeric-only, because the regex `[^a-zA-Z0-9\s]` retains
whitespace. -/
theorem normalizeCaptchaAnswer_keeps_whitespace :
    normalizeCaptchaAnswer "a b" = "a b" ∧
      (normalizeCaptchaAnswer "a b").data.all Char.isAlphanum = false := by
  exact ⟨by decide, by decide⟩
